import Mathlib

/-!
Verification of the iris-vector-graph Cypher-to-SQL layer: shallow embeddings of
the translation context (`iris_vector_graph_core/cypher/translator.py`), the
GraphQL resolvers (`api/gql/resolvers/mutation.py`), the Cypher executor
(`api/gql/schema.py`), and the schema utilities (`iris_vector_graph/schema.py`),
together with theorems about the properties their documentation promises.
-/

namespace IVG

/-! ## Definitions -/

/-- Scalar parameter values passed to SQL statements (Python scalars at the DB-API edge). -/
inductive Value where
  | vStr (s : String)
  | vInt (n : Int)
deriving DecidableEq

/-- Python `str(x)` for the scalars we model. -/
def Value.asPyStr : Value → String
  | .vStr s => s
  | .vInt n => Int.repr n

/-- A SQL statement together with its positional parameters. -/
structure Stmt where
  sql : String
  params : List Value
deriving DecidableEq

/-- Numeric value of a decimal digit character. -/
def digitVal (c : Char) : Nat := c.toNat - 48

/-- Decimal evaluation of a digit string, most significant digit first. -/
def evalDigits (l : List Char) : Nat := l.foldl (fun a c => 10 * a + digitVal c) 0

/-- `pat` occurs as a contiguous substring of `s`. -/
def strContains (s pat : String) : Prop := ∃ p q, s = p ++ (pat ++ q)

/-- No `?` placeholder character occurs in `s`. -/
abbrev noQMark (s : String) : Prop := '?' ∉ s.data

/-- The mutable translation context of the core translator
(`src/iris_vector_graph_core/cypher/translator.py`): variable→alias map, accumulated
clause fragments, parameter buffer and alias counter. -/
structure TranslationContext where
  variable_aliases : List (String × String) := []
  select_items : List String := []
  from_clauses : List String := []
  join_clauses : List String := []
  where_conditions : List String := []
  order_by_items : List String := []
  parameters : List Value := []
  alias_counter : Nat := 0
deriving DecidableEq

/-- `TranslationContext.next_alias`: generate the next unique table alias
(`f"{prefix}{self._alias_counter}"`, then increment the counter). -/
def next_alias (ctx : TranslationContext) (pfx : String) : String × TranslationContext :=
  (pfx ++ Nat.repr ctx.alias_counter, { ctx with alias_counter := ctx.alias_counter + 1 })

/-- `TranslationContext.register_variable`: register a Cypher variable and return its
SQL alias; a variable not yet in the map is assigned `next_alias("n")`. -/
def register_variable (ctx : TranslationContext) (v : String) : String × TranslationContext :=
  match ctx.variable_aliases.lookup v with
  | some a => (a, ctx)
  | none =>
    let p := next_alias ctx "n"
    (p.1, { p.2 with variable_aliases := ctx.variable_aliases ++ [(v, p.1)] })

/-- `TranslationContext.add_parameter`: append the value to the parameter buffer and
return the `?` placeholder. -/
def add_parameter (ctx : TranslationContext) (v : Value) : String × TranslationContext :=
  ("?", { ctx with parameters := ctx.parameters ++ [v] })

/-- Python `sep.join(parts)`. -/
def joinSep (sep : String) : List String → String
  | [] => ""
  | [x] => x
  | x :: y :: xs => x ++ sep ++ joinSep sep (y :: xs)

/-- `TranslationContext.build_sql`: assemble the final SQL query from the accumulated
clauses, in the source's order: SELECT, FROM, JOINs, WHERE, ORDER BY, LIMIT, OFFSET. -/
def build_sql (ctx : TranslationContext) (distinct : Bool)
    (limit : Option Int) (skip : Option Int) : String :=
  let distinct_kw := if distinct then "DISTINCT " else ""
  let select_clause := "SELECT " ++ distinct_kw ++ joinSep ", " ctx.select_items
  let parts1 := [select_clause]
  let parts2 := parts1 ++ (if ctx.from_clauses.isEmpty then []
    else ["FROM " ++ joinSep ", " ctx.from_clauses])
  let parts3 := parts2 ++ ctx.join_clauses
  let parts4 := parts3 ++ (if ctx.where_conditions.isEmpty then []
    else ["WHERE " ++ joinSep " AND " ctx.where_conditions])
  let parts5 := parts4 ++ (if ctx.order_by_items.isEmpty then []
    else ["ORDER BY " ++ joinSep ", " ctx.order_by_items])
  let parts6 := parts5 ++ (match limit with
    | some l => ["LIMIT " ++ Int.repr l]
    | none => [])
  let parts7 := parts6 ++ (match skip with
    | some s => ["OFFSET " ++ Int.repr s]
    | none => [])
  joinSep "\n" parts7

/-- Modelled from the spec: the full translator package
(`iris_vector_graph/cypher/translator.py`, exercised by the unit tests under
`src/tests/unit/` but itself not present under `src/`) also registers relationship
(edge) variables in the alias table; per the spec's data model, the alias table maps
"variable → SQL alias (`n0, n1, …` for node patterns; `e0, e1, …` for edges)", so edge
aliases carry the `e` prefix and their own sequence. The node side delegates to the
source's `register_variable`. -/
structure FullAliasContext where
  base : TranslationContext := {}
  edge_counter : Nat := 0
deriving DecidableEq

/-- Register a node-pattern variable (the source's `register_variable`). -/
def register_node_variable (ctx : FullAliasContext) (v : String) :
    String × FullAliasContext :=
  let p := register_variable ctx.base v
  (p.1, { ctx with base := p.2 })

/-- Modelled from the spec: register an edge variable under the `e` prefix, reusing an
existing alias when the variable is already in the table. -/
def register_edge_variable (ctx : FullAliasContext) (v : String) :
    String × FullAliasContext :=
  match ctx.base.variable_aliases.lookup v with
  | some a => (a, ctx)
  | none =>
    let a := "e" ++ Nat.repr ctx.edge_counter
    (a, { ctx with
            base := { ctx.base with
                        variable_aliases := ctx.base.variable_aliases ++ [(v, a)] },
            edge_counter := ctx.edge_counter + 1 })

/-- Whether a registration event concerns a node pattern or an edge. -/
inductive VarKind where
  | node
  | edge
deriving DecidableEq

/-- Apply one registration event to the context. -/
def registerEvent (ctx : FullAliasContext) : VarKind × String → FullAliasContext
  | (VarKind.node, v) => (register_node_variable ctx v).2
  | (VarKind.edge, v) => (register_edge_variable ctx v).2

/-- Run a sequence of registrations against a fresh context. -/
def runEvents (evs : List (VarKind × String)) : FullAliasContext :=
  evs.foldl registerEvent {}

/-- Aliases of the node entries of an alias table, in table order. -/
def nodeAliasesOf (t : List (String × String)) : List String :=
  (t.map Prod.snd).filter (fun a => a.data.head? == some 'n')

/-- Aliases of the edge entries of an alias table, in table order. -/
def edgeAliasesOf (t : List (String × String)) : List String :=
  (t.map Prod.snd).filter (fun a => a.data.head? == some 'e')

/-- Canonical shape of the alias table: distinct variables; the node aliases, in
first-registration order, are exactly `n0, n1, …` up to the alias counter; the edge
aliases are exactly `e0, e1, …` up to the edge counter; and every alias carries one of
the two prefixes. -/
def aliasTableCanonical (ctx : FullAliasContext) : Prop :=
  (ctx.base.variable_aliases.map Prod.fst).Nodup ∧
  nodeAliasesOf ctx.base.variable_aliases =
    (List.range ctx.base.alias_counter).map (fun i => "n" ++ Nat.repr i) ∧
  edgeAliasesOf ctx.base.variable_aliases =
    (List.range ctx.edge_counter).map (fun i => "e" ++ Nat.repr i) ∧
  ∀ a ∈ ctx.base.variable_aliases.map Prod.snd,
    a.data.head? = some 'n' ∨ a.data.head? = some 'e'

/-- The cursor statements issued by `Mutation.delete_protein`
(`src/api/gql/resolvers/mutation.py`) on its success path: the existence check
followed by the five DELETE statements, in source order. -/
def delete_protein_statements (id : String) : List Stmt :=
  [⟨"SELECT COUNT(*) FROM nodes WHERE node_id = ?", [Value.vStr id]⟩,
   ⟨"DELETE FROM kg_NodeEmbeddings WHERE id = ?", [Value.vStr id]⟩,
   ⟨"DELETE FROM rdf_edges WHERE s = ? OR o_id = ?", [Value.vStr id, Value.vStr id]⟩,
   ⟨"DELETE FROM rdf_props WHERE s = ?", [Value.vStr id]⟩,
   ⟨"DELETE FROM rdf_labels WHERE s = ?", [Value.vStr id]⟩,
   ⟨"DELETE FROM nodes WHERE node_id = ?", [Value.vStr id]⟩]

/-- Whether a statement is a DELETE statement. -/
def isDeleteStmt (s : Stmt) : Bool := "DELETE FROM ".data.isPrefixOf s.sql.data

/-- The table a DELETE statement targets: the word following `DELETE FROM `. -/
def deleteTarget (s : Stmt) : String :=
  String.mk ((s.sql.data.drop 12).takeWhile (fun c => !(c == ' ')))

/-- The delete table order of `delete_protein`. -/
def deleteTableOrder : List String :=
  ["kg_NodeEmbeddings", "rdf_edges", "rdf_props", "rdf_labels", "nodes"]

/-- The FOREIGN KEY references among the five graph tables, read off
`GraphSchema.get_base_schema_sql` (`src/iris_vector_graph/schema.py`): `(t, u)` means
table `t` declares a FOREIGN KEY into table `u`. -/
def fk_references : List (String × String) :=
  [("rdf_labels", "nodes"), ("rdf_edges", "nodes"), ("kg_NodeEmbeddings", "nodes")]

/-- Commands issued through the DB cursor by the executor. -/
inductive DbCmd where
  | startTxn
  | exec (sql : String) (ps : List Value)
  | commit
  | rollback
deriving DecidableEq

/-- The statement loop of `Query.execute_cypher`'s transactional branch
(`src/api/gql/schema.py`): execute each statement with `all_params[idx]` when present
and `[]` otherwise; stop at the first raising statement. The abstract statement
semantics `sem` returns `none` for a raise. -/
def execStmtsLoop {σ : Type} (sem : String → List Value → σ → Option σ) :
    List String → List (List Value) → Nat → σ → List DbCmd × Option σ
  | [], _, _, st => ([], some st)
  | s :: rest, allPs, idx, st =>
    let ps := allPs.getD idx []
    match sem s ps st with
    | none => ([DbCmd.exec s ps], none)
    | some st2 =>
      let r := execStmtsLoop sem rest allPs (idx + 1) st2
      (DbCmd.exec s ps :: r.1, r.2)

/-- `Query.execute_cypher`, transactional branch: `START TRANSACTION`, the statement
loop in emitted order, then `COMMIT`; when a statement raises, `ROLLBACK` — which, by
the host database's transaction semantics, restores the state as of
`START TRANSACTION`. Returns the cursor trace, the final committed state, and whether
the program committed. -/
def execute_cypher_transactional {σ : Type} (sem : String → List Value → σ → Option σ)
    (stmts : List String) (allPs : List (List Value)) (db : σ) :
    List DbCmd × σ × Bool :=
  let r := execStmtsLoop sem stmts allPs 0 db
  match r.2 with
  | some w => (DbCmd.startTxn :: r.1 ++ [DbCmd.commit], w, true)
  | none => (DbCmd.startTxn :: r.1 ++ [DbCmd.rollback], db, false)

/-- Statements paired with their positionally aligned parameter lists, from `idx` on. -/
def alignedFrom : List String → List (List Value) → Nat → List (String × List Value)
  | [], _, _ => []
  | s :: rest, allPs, idx => (s, allPs.getD idx []) :: alignedFrom rest allPs (idx + 1)

/-- Each statement with the parameter list aligned to its position. -/
def alignedStatements (stmts : List String) (allPs : List (List Value)) :
    List (String × List Value) :=
  alignedFrom stmts allPs 0

/-- Reference semantics: run the aligned statements in order, failing on the first
statement that raises. -/
def runProgramSpec {σ : Type} (sem : String → List Value → σ → Option σ) :
    List (String × List Value) → σ → Option σ
  | [], st => some st
  | (s, ps) :: rest, st =>
    match sem s ps st with
    | none => none
    | some st2 => runProgramSpec sem rest st2

/-- Reference trace: the statements attempted, in order, up to and including the first
raising one. -/
def execTraceSpec {σ : Type} (sem : String → List Value → σ → Option σ) :
    List (String × List Value) → σ → List DbCmd
  | [], _ => []
  | (s, ps) :: rest, st =>
    match sem s ps st with
    | none => [DbCmd.exec s ps]
    | some st2 => DbCmd.exec s ps :: execTraceSpec sem rest st2

/-- Example statement semantics over a counter state: the statement `BOOM` raises,
every other statement increments the counter. -/
def semExample : String → List Value → Nat → Option Nat :=
  fun s _ st => if s = "BOOM" then none else some (st + 1)

/-- `GraphSchema.get_bulk_insert_sql` (`src/iris_vector_graph/schema.py`): the
idempotent-insert template for each of the five graph tables; any other table name
raises `ValueError` naming the valid tables. -/
def get_bulk_insert_sql (table : String) : Except String String :=
  if table = "nodes" then
    .ok "INSERT INTO Graph_KG.nodes (node_id) SELECT ? WHERE NOT EXISTS (SELECT 1 FROM Graph_KG.nodes WHERE node_id = ?)"
  else if table = "rdf_labels" then
    .ok "INSERT INTO Graph_KG.rdf_labels (s, label) SELECT ?, ? WHERE NOT EXISTS (SELECT 1 FROM Graph_KG.rdf_labels WHERE s = ? AND label = ?)"
  else if table = "rdf_props" then
    .ok "INSERT INTO Graph_KG.rdf_props (s, \"key\", val) SELECT ?, ?, ? WHERE NOT EXISTS (SELECT 1 FROM Graph_KG.rdf_props WHERE s = ? AND \"key\" = ?)"
  else if table = "rdf_edges" then
    .ok "INSERT INTO Graph_KG.rdf_edges (s, p, o_id) SELECT ?, ?, ? WHERE NOT EXISTS (SELECT 1 FROM Graph_KG.rdf_edges WHERE s = ? AND p = ? AND o_id = ?)"
  else if table = "kg_NodeEmbeddings" then
    .ok "INSERT INTO Graph_KG.kg_NodeEmbeddings (id, emb, metadata) SELECT ?, TO_VECTOR(?), ? WHERE NOT EXISTS (SELECT 1 FROM Graph_KG.kg_NodeEmbeddings WHERE id = ?)"
  else
    .error ("Unknown table: " ++ table ++
      ". Valid: ['nodes', 'rdf_labels', 'rdf_props', 'rdf_edges', 'kg_NodeEmbeddings']")

/-- Effect on a table of one execution of an
`INSERT … SELECT … WHERE NOT EXISTS (SELECT 1 FROM … WHERE matching-key)` statement:
the row is appended exactly when no existing row has the same matching key. -/
def notExistsInsert {α κ : Type} [DecidableEq κ] (key : α → κ) (t : List α) (row : α) :
    List α :=
  if t.any (fun r => decide (key r = key row)) then t else t ++ [row]

/-- Number of rows of the table whose matching key is `k`. -/
def countKey {α κ : Type} [DecidableEq κ] (key : α → κ) (t : List α) (k : κ) : Nat :=
  (t.filter (fun r => decide (key r = k))).length

/-- A row of `rdf_props`: (s, key, val). -/
abbrev PropRow := String × String × String

/-- `UPDATE rdf_props SET val = ? WHERE s = ? AND key = ?`: the updated table and the
DB-API `rowcount` (number of rows matched by the WHERE clause). -/
def sqlUpdateProps (t : List PropRow) (sid k v : String) : List PropRow × Nat :=
  (t.map (fun r => if r.1 = sid ∧ r.2.1 = k then (r.1, r.2.1, v) else r),
   (t.filter (fun r => decide (r.1 = sid ∧ r.2.1 = k))).length)

/-- The UPDATE statement of the UPSERT pair, keyed by `(s, key)`. -/
def updStmt (sid k v : String) : Stmt :=
  ⟨"UPDATE rdf_props SET val = ? WHERE s = ? AND key = ?",
    [Value.vStr v, Value.vStr sid, Value.vStr k]⟩

/-- The INSERT statement of the UPSERT pair. -/
def insStmt (sid k v : String) : Stmt :=
  ⟨"INSERT INTO rdf_props (s, key, val) VALUES (?, ?, ?)",
    [Value.vStr sid, Value.vStr k, Value.vStr v]⟩

/-- One UPSERT pair of `Mutation.update_protein`
(`src/api/gql/resolvers/mutation.py`): UPDATE first; INSERT only when the UPDATE
matched no row. Returns the issued statements and the new table. -/
def upsertProp (t : List PropRow) (sid k v : String) : List Stmt × List PropRow :=
  let u := sqlUpdateProps t sid k v
  if u.2 = 0 then ([updStmt sid k v, insStmt sid k v], u.1 ++ [(sid, k, v)])
  else ([updStmt sid k v], u.1)

/-- `UpdateProteinInput`: the optional partial-update fields (`confidence` already
stringified, as in `str(input.confidence)`). -/
structure UpdateProteinInput where
  name : Option String := none
  function : Option String := none
  confidence : Option String := none

/-- The `updates` list built by `update_protein`, in source order. -/
def updateEntries (inp : UpdateProteinInput) : List (String × String) :=
  (match inp.name with | some v => [("name", v)] | none => []) ++
  (match inp.function with | some v => [("function", v)] | none => []) ++
  (match inp.confidence with | some v => [("confidence", v)] | none => [])

/-- The per-property UPSERT loop of `update_protein`. -/
def upsertLoop (sid : String) : List (String × String) → List PropRow →
    List Stmt × List PropRow
  | [], t => ([], t)
  | (k, v) :: rest, t =>
    let u := upsertProp t sid k v
    let r := upsertLoop sid rest u.2
    (u.1 ++ r.1, r.2)

/-- The single `db_connection.commit()` at the end of the mutation. -/
def commitMarker : Stmt := ⟨"COMMIT", []⟩

/-- `Mutation.update_protein`, write path: the UPSERT pair per property, then one
commit. Returns the issued statements and the resulting `rdf_props` table. -/
def update_protein_run (sid : String) (inp : UpdateProteinInput) (t : List PropRow) :
    List Stmt × List PropRow :=
  let r := upsertLoop sid (updateEntries inp) t
  (r.1 ++ [commitMarker], r.2)

/-- The graph tables touched by `create_protein`, as row lists. -/
structure GraphState where
  nodes : List String := []
  rdf_labels : List (String × String) := []
  rdf_props : List PropRow := []
  kg_NodeEmbeddings : List (String × String) := []
deriving DecidableEq

/-- `CreateProteinInput` (embedding entries kept abstract as values; the dimension
check only inspects their count). -/
structure CreateProteinInput where
  id : String
  name : String
  function : Option String := none
  organism : Option String := none
  embedding : Option (List Value) := none

/-- Python `"[" + ",".join([str(x) for x in input.embedding]) + "]"`. -/
def embStr (l : List Value) : String :=
  "[" ++ joinSep "," (l.map Value.asPyStr) ++ "]"

/-- `Mutation.create_protein` (`src/api/gql/resolvers/mutation.py`): duplicate check;
inserts for node, label and properties; the 768-dimension gate before the embedding
insert; commit. A raise inside the transaction rolls every insert back, so the error
cases return the original state. Returns the committed state and the error message,
if any. -/
def create_protein (db : GraphState) (inp : CreateProteinInput) :
    GraphState × Option String :=
  if db.nodes.contains inp.id then
    (db, some ("Protein with ID " ++ inp.id ++ " already exists"))
  else
    let db1 := { db with nodes := db.nodes ++ [inp.id] }
    let db2 := { db1 with rdf_labels := db1.rdf_labels ++ [(inp.id, "Protein")] }
    let prop_data := [(inp.id, "name", inp.name)] ++
      (match inp.function with | some v => [(inp.id, "function", v)] | none => []) ++
      (match inp.organism with | some v => [(inp.id, "organism", v)] | none => [])
    let db3 := { db2 with rdf_props := db2.rdf_props ++ prop_data }
    match inp.embedding with
    | some l =>
      if l.length > 0 then
        if l.length ≠ 768 then
          (db, some ("Failed to create protein: Embedding must be 768-dimensional, got "
            ++ Nat.repr l.length))
        else
          ({ db3 with kg_NodeEmbeddings := db3.kg_NodeEmbeddings ++ [(inp.id, embStr l)] },
            none)
      else (db3, none)
    | none => (db3, none)

/-- Generated SQL query (the `SQLQuery` dataclass): SQL text, per-statement parameter
lists, transactional flag. -/
structure SQLQuery where
  sql : String
  parameters : List (List Value) := []
  is_transactional : Bool := false

/-- Modelled from the spec: the similarity-option resolution of
`translate_procedure_call` in the full translator module
(`iris_vector_graph/cypher/translator.py`, exercised by `src/tests/unit/` but not
present under `src/`): `cosine` (the default) maps to `VECTOR_COSINE`, `dot_product`
to `VECTOR_DOT_PRODUCT`, and any other value is a translation error naming the
`similarity` option. -/
def similarityFunction : Option String → Except String String
  | none => .ok "VECTOR_COSINE"
  | some "cosine" => .ok "VECTOR_COSINE"
  | some "dot_product" => .ok "VECTOR_DOT_PRODUCT"
  | some s => .error ("Unknown similarity: " ++ s)

/-- JSON serialization of the literal target vector. -/
def vectorJson (vec : List Value) : String :=
  "[" ++ joinSep "," (vec.map Value.asPyStr) ++ "]"

/-- Modelled from the spec: the body of the `VecSearch` CTE for Mode 1 (literal
vector): `SELECT TOP n` over `kg_NodeEmbeddings` joined to `rdf_labels`, the
similarity function against `TO_VECTOR(?)`, a label filter `= ?`, ordered by score
descending. -/
def vecSearchBody (simFn : String) (n : Nat) : String :=
  "SELECT TOP " ++ Nat.repr n ++
  " e.id AS node_id, " ++ simFn ++ "(e.emb, TO_VECTOR(?)) AS score\n" ++
  "FROM Graph_KG.kg_NodeEmbeddings e\n" ++
  "JOIN Graph_KG.rdf_labels l ON l.s = e.id\n" ++
  "WHERE l.label = ?\n" ++
  "ORDER BY score DESC"

/-- Modelled from the spec: the outer SELECT hydrating `node` (id, labels array,
properties array) and passing `score` through as a scalar. -/
def vecSearchOuter : String :=
  "SELECT VecSearch.node_id AS node_id, " ++
  "(SELECT JSON_ARRAYAGG(label) FROM Graph_KG.rdf_labels WHERE s = VecSearch.node_id)" ++
  " AS node_labels, " ++
  "(SELECT JSON_ARRAYAGG(val) FROM Graph_KG.rdf_props WHERE s = VecSearch.node_id)" ++
  " AS node_props, VecSearch.score AS score\nFROM VecSearch"

/-- The assembled single SQL string: the `VecSearch` CTE before the hydrating SELECT. -/
def vecSearchSQL (simFn : String) (n : Nat) : String :=
  "WITH VecSearch AS (\n" ++ vecSearchBody simFn n ++ "\n)\n" ++ vecSearchOuter

/-- Modelled from the spec: translation of
`CALL ivg.vector.search(label, property, vec, n[, options]) YIELD node, score RETURN
node, score` with a literal target vector (Mode 1): one SELECT led by the `VecSearch`
CTE, parameters `[json-vector, label]`, not transactional. -/
def translate_vector_search (label property : String) (vec : List Value) (n : Nat)
    (simOpt : Option String) : Except String SQLQuery := do
  let simFn ← similarityFunction simOpt
  .ok { sql := vecSearchSQL simFn n,
        parameters := [[Value.vStr (vectorJson vec), Value.vStr label]],
        is_transactional := false }

/-! ## Helper theorems -/

theorem toDigitsCore_append (fuel : Nat) : ∀ (n : Nat) (ds : List Char),
    Nat.toDigitsCore 10 fuel n ds = Nat.toDigitsCore 10 fuel n [] ++ ds := by
  induction fuel with
  | zero => intro n ds; simp [Nat.toDigitsCore]
  | succ fuel ih =>
    intro n ds
    simp only [Nat.toDigitsCore]
    by_cases h : n / 10 = 0
    · simp [h]
    · simp only [h, if_false]
      rw [ih (n / 10) (Nat.digitChar (n % 10) :: ds), ih (n / 10) [Nat.digitChar (n % 10)]]
      simp

theorem toDigitsCore_fuel (n : Nat) : ∀ (f1 f2 : Nat), n < f1 → n < f2 →
    Nat.toDigitsCore 10 f1 n [] = Nat.toDigitsCore 10 f2 n [] := by
  induction n using Nat.strong_induction_on with
  | _ n ih =>
    intro f1 f2 h1 h2
    match f1, f2 with
    | f1 + 1, f2 + 1 =>
      simp only [Nat.toDigitsCore]
      by_cases h : n / 10 = 0
      · simp [h]
      · simp only [h, if_false]
        have hn : n ≠ 0 := by intro e; subst e; simp at h
        have hdiv : n / 10 < n := Nat.div_lt_self (Nat.pos_of_ne_zero hn) (by omega)
        rw [toDigitsCore_append f1, toDigitsCore_append f2,
          ih (n / 10) hdiv f1 f2 (by omega) (by omega)]

theorem toDigits_eq_of_lt (n : Nat) (h : n < 10) : Nat.toDigits 10 n = [Nat.digitChar n] := by
  simp [Nat.toDigits, Nat.toDigitsCore, Nat.div_eq_of_lt h, Nat.mod_eq_of_lt h]

theorem toDigits_step (n : Nat) (h : 10 ≤ n) :
    Nat.toDigits 10 n = Nat.toDigits 10 (n / 10) ++ [Nat.digitChar (n % 10)] := by
  have hd : ¬ n / 10 = 0 := by
    have : 1 ≤ n / 10 := (Nat.le_div_iff_mul_le (by omega)).mpr (by omega)
    omega
  have hdiv : n / 10 < n := Nat.div_lt_self (by omega) (by omega)
  simp only [Nat.toDigits, Nat.toDigitsCore, hd, if_false]
  rw [toDigitsCore_append n (n / 10) [Nat.digitChar (n % 10)]]
  congr 1
  exact toDigitsCore_fuel (n / 10) n (n / 10 + 1) (by omega) (by omega)

theorem evalDigits_append_singleton (l : List Char) (c : Char) :
    evalDigits (l ++ [c]) = 10 * evalDigits l + digitVal c := by
  simp [evalDigits, List.foldl_append]

theorem digitVal_digitChar (r : Nat) (h : r < 10) : digitVal (Nat.digitChar r) = r := by
  interval_cases r <;> decide

theorem evalDigits_toDigits (n : Nat) : evalDigits (Nat.toDigits 10 n) = n := by
  induction n using Nat.strong_induction_on with
  | _ n ih =>
    by_cases h : n < 10
    · rw [toDigits_eq_of_lt n h]
      simp [evalDigits, digitVal_digitChar n h]
    · push_neg at h
      have hdiv : n / 10 < n := Nat.div_lt_self (by omega) (by omega)
      rw [toDigits_step n h, evalDigits_append_singleton, ih (n / 10) hdiv,
        digitVal_digitChar _ (Nat.mod_lt _ (by omega))]
      omega

theorem natRepr_inj {m n : Nat} (h : Nat.repr m = Nat.repr n) : m = n := by
  have hd : Nat.toDigits 10 m = Nat.toDigits 10 n := by
    have h2 := congrArg String.data h
    simpa [Nat.repr, List.asString] using h2
  calc m = evalDigits (Nat.toDigits 10 m) := (evalDigits_toDigits m).symm
    _ = evalDigits (Nat.toDigits 10 n) := by rw [hd]
    _ = n := evalDigits_toDigits n

theorem toDigits_chars (n : Nat) : ∀ c ∈ Nat.toDigits 10 n, 48 ≤ c.toNat ∧ c.toNat ≤ 57 := by
  induction n using Nat.strong_induction_on with
  | _ n ih =>
    by_cases h : n < 10
    · rw [toDigits_eq_of_lt n h]
      intro c hc
      simp only [List.mem_singleton] at hc
      subst hc
      interval_cases n <;> decide
    · push_neg at h
      have hdiv : n / 10 < n := Nat.div_lt_self (by omega) (by omega)
      rw [toDigits_step n h]
      intro c hc
      rcases List.mem_append.mp hc with hc | hc
      · exact ih (n / 10) hdiv c hc
      · simp only [List.mem_singleton] at hc
        subst hc
        have hr : n % 10 < 10 := Nat.mod_lt _ (by omega)
        set r := n % 10 with hrdef
        clear_value r
        interval_cases r <;> decide

theorem natRepr_chars (n : Nat) : ∀ c ∈ (Nat.repr n).data, 48 ≤ c.toNat ∧ c.toNat ≤ 57 := by
  intro c hc
  have : c ∈ Nat.toDigits 10 n := by simpa [Nat.repr, List.asString] using hc
  exact toDigits_chars n c this

theorem noQMark_append {s t : String} (hs : noQMark s) (ht : noQMark t) :
    noQMark (s ++ t) := by
  intro h
  rw [String.data_append] at h
  rcases List.mem_append.mp h with h | h
  · exact hs h
  · exact ht h

theorem noQMark_natRepr (n : Nat) : noQMark (Nat.repr n) := by
  intro h
  have h2 := natRepr_chars n _ h
  have h3 : ('?').toNat = 63 := rfl
  omega

theorem noQMark_intRepr (i : Int) : noQMark (Int.repr i) := by
  cases i with
  | ofNat m => simpa [Int.repr] using noQMark_natRepr m
  | negSucc m =>
    show noQMark ("-" ++ Nat.repr (m + 1))
    exact noQMark_append (by decide) (noQMark_natRepr (m + 1))

theorem headChar_append (c : Char) (a s : String) (h : a.data = [c]) :
    (a ++ s).data.head? = some c := by
  rw [String.data_append, h]
  rfl

theorem string_ne_of_head {a b s t : String} {c d : Char}
    (ha : a.data = [c]) (hb : b.data = [d]) (hcd : c ≠ d) : a ++ s ≠ b ++ t := by
  intro h
  have h2 := congrArg (fun x => x.data.head?) h
  simp only at h2
  rw [headChar_append c a s ha, headChar_append d b t hb] at h2
  exact hcd (Option.some.inj h2)

theorem prefixed_repr_inj {a : String} {i j : Nat}
    (h : a ++ Nat.repr i = a ++ Nat.repr j) : i = j := by
  have h2 := congrArg String.data h
  rw [String.data_append, String.data_append] at h2
  have h3 : (Nat.repr i).data = (Nat.repr j).data := List.append_cancel_left h2
  exact natRepr_inj (by cases hri : Nat.repr i; cases hrj : Nat.repr j
                        simp_all)

theorem strContains_left {s pat : String} (h : strContains s pat) (t : String) :
    strContains (s ++ t) pat := by
  obtain ⟨p, q, rfl⟩ := h
  exact ⟨p, q ++ t, by simp [String.append_assoc]⟩

theorem strContains_right {t pat : String} (h : strContains t pat) (s : String) :
    strContains (s ++ t) pat := by
  obtain ⟨p, q, rfl⟩ := h
  exact ⟨s ++ p, q, by simp [String.append_assoc]⟩

theorem string_append_empty_both (pat : String) : "" ++ (pat ++ "") = pat := by
  cases pat
  simp [String.append]

theorem strContains_self (pat : String) : strContains pat pat :=
  ⟨"", "", (string_append_empty_both pat).symm⟩

theorem string_data_inj {s t : String} (h : s.data = t.data) : s = t := by
  cases s
  cases t
  exact congrArg String.mk h

theorem strContains_of_segment {s pat : String} (h : pat.data <:+: s.data) :
    strContains s pat := by
  obtain ⟨l1, l2, hl⟩ := h
  refine ⟨⟨l1⟩, ⟨l2⟩, ?_⟩
  refine (string_data_inj ?_).symm
  rw [String.data_append, String.data_append, ← hl]
  simp [List.append_assoc]

theorem joinSep_append_singleton (sep a : String) :
    ∀ (x : String) (xs : List String),
      joinSep sep ((x :: xs) ++ [a]) = joinSep sep (x :: xs) ++ sep ++ a := by
  intro x xs
  induction xs generalizing x with
  | nil => simp [joinSep]
  | cons y ys ih =>
    have h2 : joinSep sep ((x :: y :: ys) ++ [a]) =
        x ++ sep ++ joinSep sep ((y :: ys) ++ [a]) := rfl
    rw [h2, ih y, joinSep]
    simp [String.append_assoc]

theorem joinSep_two_singletons (sep a b : String) (x : String) (xs : List String) :
    joinSep sep ((x :: xs) ++ [a] ++ [b]) =
      joinSep sep (x :: xs) ++ sep ++ a ++ sep ++ b := by
  have h1 : (x :: xs) ++ [a] ++ [b] = (x :: (xs ++ [a])) ++ [b] := by simp
  rw [h1, joinSep_append_singleton sep b x (xs ++ [a])]
  have h2 : x :: (xs ++ [a]) = (x :: xs) ++ [a] := by simp
  rw [show joinSep sep (x :: (xs ++ [a])) = joinSep sep ((x :: xs) ++ [a]) from by rw [h2],
    joinSep_append_singleton sep a x xs]

theorem lookup_eq_none_not_mem {t : List (String × String)} {v : String}
    (h : t.lookup v = none) : ∀ p ∈ t, p.1 ≠ v := by
  induction t with
  | nil => intro p hp; simp at hp
  | cons x xs ih =>
    obtain ⟨k, b⟩ := x
    intro p hp
    cases hx : (v == k) with
    | true =>
      simp only [List.lookup, hx] at h
      exact absurd h (by simp)
    | false =>
      simp only [List.lookup, hx] at h
      rcases List.mem_cons.mp hp with hp | hp
      · subst hp
        intro he
        simp only at he
        rw [he] at hx
        simp at hx
      · exact ih h p hp

theorem lookup_mem {t : List (String × String)} {v a : String}
    (h : t.lookup v = some a) : (v, a) ∈ t := by
  induction t with
  | nil => simp [List.lookup] at h
  | cons x xs ih =>
    obtain ⟨k, b⟩ := x
    cases hx : (v == k) with
    | true =>
      simp only [List.lookup, hx] at h
      have hv : v = k := by simpa using hx
      have hb : b = a := Option.some.inj h
      subst hv
      subst hb
      exact List.mem_cons_self _ _
    | false =>
      simp only [List.lookup, hx] at h
      exact List.mem_cons_of_mem _ (ih h)

theorem lookup_append_of_some {t t2 : List (String × String)} {v a : String}
    (h : t.lookup v = some a) : (t ++ t2).lookup v = some a := by
  induction t with
  | nil => simp [List.lookup] at h
  | cons x xs ih =>
    obtain ⟨k, b⟩ := x
    cases hx : (v == k) with
    | true =>
      simp only [List.lookup, hx] at h
      simpa [List.lookup, hx] using h
    | false =>
      simp only [List.lookup, hx] at h
      simpa [List.lookup, hx] using ih h

theorem head_n_append (s : String) : ("n" ++ s).data.head? = some 'n' :=
  headChar_append 'n' "n" s rfl

theorem head_e_append (s : String) : ("e" ++ s).data.head? = some 'e' :=
  headChar_append 'e' "e" s rfl

theorem nodeAliasesOf_append (t : List (String × String)) (v a : String) :
    nodeAliasesOf (t ++ [(v, a)]) =
      nodeAliasesOf t ++ (if a.data.head? == some 'n' then [a] else []) := by
  simp only [nodeAliasesOf, List.map_append, List.filter_append, List.map_cons,
    List.map_nil, List.filter_cons, List.filter_nil]

theorem edgeAliasesOf_append (t : List (String × String)) (v a : String) :
    edgeAliasesOf (t ++ [(v, a)]) =
      edgeAliasesOf t ++ (if a.data.head? == some 'e' then [a] else []) := by
  simp only [edgeAliasesOf, List.map_append, List.filter_append, List.map_cons,
    List.map_nil, List.filter_cons, List.filter_nil]

theorem registerEvent_canonical {ctx : FullAliasContext} (h : aliasTableCanonical ctx)
    (ev : VarKind × String) : aliasTableCanonical (registerEvent ctx ev) := by
  obtain ⟨hkeys, hnode, hedge, hhead⟩ := h
  obtain ⟨kind, v⟩ := ev
  have hfresh : ∀ (hl : ctx.base.variable_aliases.lookup v = none),
      v ∉ ctx.base.variable_aliases.map Prod.fst := by
    intro hl hv
    rcases List.mem_map.mp hv with ⟨p, hp, hp1⟩
    exact lookup_eq_none_not_mem hl p hp hp1
  cases kind with
  | node =>
    show aliasTableCanonical (register_node_variable ctx v).2
    cases hl : ctx.base.variable_aliases.lookup v with
    | some a =>
      have hreg : register_variable ctx.base v = (a, ctx.base) := by
        rw [register_variable, hl]
      simp only [register_node_variable, hreg]
      exact ⟨hkeys, hnode, hedge, hhead⟩
    | none =>
      have hreg : register_variable ctx.base v =
          ("n" ++ Nat.repr ctx.base.alias_counter,
            { ctx.base with
                alias_counter := ctx.base.alias_counter + 1,
                variable_aliases := ctx.base.variable_aliases ++
                  [(v, "n" ++ Nat.repr ctx.base.alias_counter)] }) := by
        rw [register_variable, hl]
        rfl
      simp only [register_node_variable, hreg]
      refine ⟨?_, ?_, ?_, ?_⟩
      · simp only [List.map_append, List.map_cons, List.map_nil]
        rw [List.nodup_append]
        exact ⟨hkeys, List.nodup_singleton v,
          by
            intro x hx hx2
            simp only [List.mem_singleton] at hx2
            subst hx2
            exact hfresh hl hx⟩
      · show nodeAliasesOf (ctx.base.variable_aliases ++
            [(v, "n" ++ Nat.repr ctx.base.alias_counter)]) = _
        rw [nodeAliasesOf_append, hnode]
        have hh : (("n" ++ Nat.repr ctx.base.alias_counter).data.head? ==
            some 'n') = true := by
          rw [head_n_append]
          rfl
        rw [hh]
        simp [List.range_succ]
      · show edgeAliasesOf (ctx.base.variable_aliases ++
            [(v, "n" ++ Nat.repr ctx.base.alias_counter)]) = _
        rw [edgeAliasesOf_append, hedge]
        have hh : (("n" ++ Nat.repr ctx.base.alias_counter).data.head? ==
            some 'e') = false := by
          rw [head_n_append]
          rfl
        rw [hh]
        simp
      · intro a ha
        simp only [List.map_append, List.map_cons, List.map_nil] at ha
        rcases List.mem_append.mp ha with ha | ha
        · exact hhead a ha
        · simp only [List.mem_singleton] at ha
          subst ha
          exact Or.inl (head_n_append _)
  | edge =>
    show aliasTableCanonical (register_edge_variable ctx v).2
    cases hl : ctx.base.variable_aliases.lookup v with
    | some a =>
      simp only [register_edge_variable, hl]
      exact ⟨hkeys, hnode, hedge, hhead⟩
    | none =>
      simp only [register_edge_variable, hl]
      refine ⟨?_, ?_, ?_, ?_⟩
      · simp only [List.map_append, List.map_cons, List.map_nil]
        rw [List.nodup_append]
        exact ⟨hkeys, List.nodup_singleton v,
          by
            intro x hx hx2
            simp only [List.mem_singleton] at hx2
            subst hx2
            exact hfresh hl hx⟩
      · show nodeAliasesOf (ctx.base.variable_aliases ++
            [(v, "e" ++ Nat.repr ctx.edge_counter)]) = _
        rw [nodeAliasesOf_append, hnode]
        have hh : (("e" ++ Nat.repr ctx.edge_counter).data.head? ==
            some 'n') = false := by
          rw [head_e_append]
          rfl
        rw [hh]
        simp
      · show edgeAliasesOf (ctx.base.variable_aliases ++
            [(v, "e" ++ Nat.repr ctx.edge_counter)]) = _
        rw [edgeAliasesOf_append, hedge]
        have hh : (("e" ++ Nat.repr ctx.edge_counter).data.head? ==
            some 'e') = true := by
          rw [head_e_append]
          rfl
        rw [hh]
        simp [List.range_succ]
      · intro a ha
        simp only [List.map_append, List.map_cons, List.map_nil] at ha
        rcases List.mem_append.mp ha with ha | ha
        · exact hhead a ha
        · simp only [List.mem_singleton] at ha
          subst ha
          exact Or.inr (head_e_append _)

theorem foldl_registerEvent_canonical {ctx : FullAliasContext}
    (h : aliasTableCanonical ctx) (evs : List (VarKind × String)) :
    aliasTableCanonical (evs.foldl registerEvent ctx) := by
  induction evs generalizing ctx with
  | nil => exact h
  | cons e es ih => exact ih (registerEvent_canonical h e)

theorem canonical_empty : aliasTableCanonical {} := by
  refine ⟨List.nodup_nil, ?_, ?_, ?_⟩
  · rfl
  · rfl
  · intro a ha
    simp [TranslationContext.variable_aliases] at ha

theorem canonical_values_nodup {ctx : FullAliasContext} (h : aliasTableCanonical ctx) :
    (ctx.base.variable_aliases.map Prod.snd).Nodup := by
  obtain ⟨_, hnode, hedge, hhead⟩ := h
  have hnodeN : (nodeAliasesOf ctx.base.variable_aliases).Nodup := by
    rw [hnode]
    exact (List.nodup_range _).map fun i j hij => prefixed_repr_inj hij
  have hedgeN : (edgeAliasesOf ctx.base.variable_aliases).Nodup := by
    rw [hedge]
    exact (List.nodup_range _).map fun i j hij => prefixed_repr_inj hij
  rw [List.nodup_iff_count_le_one]
  intro a
  by_cases hmem : a ∈ ctx.base.variable_aliases.map Prod.snd
  · rcases hhead a hmem with hh | hh
    · have heq : (ctx.base.variable_aliases.map Prod.snd).count a =
          (nodeAliasesOf ctx.base.variable_aliases).count a := by
        rw [nodeAliasesOf, List.count_filter]
        simp [hh]
      rw [heq]
      exact List.nodup_iff_count_le_one.mp hnodeN a
    · have heq : (ctx.base.variable_aliases.map Prod.snd).count a =
          (edgeAliasesOf ctx.base.variable_aliases).count a := by
        rw [edgeAliasesOf, List.count_filter]
        simp [hh]
      rw [heq]
      exact List.nodup_iff_count_le_one.mp hedgeN a
  · rw [List.count_eq_zero_of_not_mem hmem]
    omega

theorem canonical_lookup_inj {ctx : FullAliasContext} (h : aliasTableCanonical ctx)
    {v w a b : String} (hvw : v ≠ w)
    (hv : ctx.base.variable_aliases.lookup v = some a)
    (hw : ctx.base.variable_aliases.lookup w = some b) : a ≠ b := by
  intro he
  subst he
  have h1 := lookup_mem hv
  have h2 := lookup_mem hw
  have hinj := List.inj_on_of_nodup_map (canonical_values_nodup h)
  exact hvw (congrArg Prod.fst (hinj h1 h2 rfl))

theorem registerEvent_preserves_lookup {ctx : FullAliasContext} {v a : String}
    (h : ctx.base.variable_aliases.lookup v = some a) (ev : VarKind × String) :
    (registerEvent ctx ev).base.variable_aliases.lookup v = some a := by
  obtain ⟨kind, w⟩ := ev
  cases kind with
  | node =>
    show (register_node_variable ctx w).2.base.variable_aliases.lookup v = some a
    cases hl : ctx.base.variable_aliases.lookup w with
    | some c =>
      have hreg : register_variable ctx.base w = (c, ctx.base) := by
        rw [register_variable, hl]
      simp only [register_node_variable, hreg]
      exact h
    | none =>
      have hreg : register_variable ctx.base w =
          ("n" ++ Nat.repr ctx.base.alias_counter,
            { ctx.base with
                alias_counter := ctx.base.alias_counter + 1,
                variable_aliases := ctx.base.variable_aliases ++
                  [(w, "n" ++ Nat.repr ctx.base.alias_counter)] }) := by
        rw [register_variable, hl]
        rfl
      simp only [register_node_variable, hreg]
      exact lookup_append_of_some h
  | edge =>
    show (register_edge_variable ctx w).2.base.variable_aliases.lookup v = some a
    cases hl : ctx.base.variable_aliases.lookup w with
    | some c =>
      simp only [register_edge_variable, hl]
      exact h
    | none =>
      simp only [register_edge_variable, hl]
      exact lookup_append_of_some h

theorem foldl_preserves_lookup {ctx : FullAliasContext} {v a : String}
    (h : ctx.base.variable_aliases.lookup v = some a) (evs : List (VarKind × String)) :
    (evs.foldl registerEvent ctx).base.variable_aliases.lookup v = some a := by
  induction evs generalizing ctx with
  | nil => exact h
  | cons e es ih => exact ih (registerEvent_preserves_lookup h e)

theorem build_sql_pagination (ctx : TranslationContext) (d : Bool) (l s : Int) :
    build_sql ctx d (some l) (some s) =
      build_sql ctx d none none ++ "\n" ++ ("LIMIT " ++ Int.repr l) ++ "\n" ++
        ("OFFSET " ++ Int.repr s) := by
  simp only [build_sql, List.append_nil]
  exact joinSep_two_singletons "\n" ("LIMIT " ++ Int.repr l) ("OFFSET " ++ Int.repr s) _ _

/-! ## Claim theorems -/

/-- C8: `add_parameter` appends the value to the parameter buffer and returns the `?`
placeholder; after any sequence of `n` calls the buffer holds exactly those `n` values
in emission order; and `build_sql` is independent of the parameter buffer, so the
context never interpolates a buffered value into the SQL text it builds. -/
theorem add_parameter_buffer_safety :
    (∀ (ctx : TranslationContext) (v : Value),
      (add_parameter ctx v).1 = "?" ∧
      (add_parameter ctx v).2.parameters = ctx.parameters ++ [v]) ∧
    (∀ (ctx : TranslationContext) (vs : List Value),
      (vs.foldl (fun c v => (add_parameter c v).2) ctx).parameters =
        ctx.parameters ++ vs) ∧
    (∀ (ctx : TranslationContext) (ps : List Value) (distinct : Bool)
        (limit skip : Option Int),
      build_sql { ctx with parameters := ps } distinct limit skip =
        build_sql ctx distinct limit skip) := by
  refine ⟨fun ctx v => ⟨rfl, rfl⟩, ?_, fun ctx ps d l s => rfl⟩
  intro ctx vs
  induction vs generalizing ctx with
  | nil => simp
  | cons v vs ih =>
    simp only [List.foldl_cons]
    rw [ih]
    simp [add_parameter]

/-- C8 witness: a concrete `add_parameter` call returns `?` and stores the value. -/
theorem add_parameter_buffer_safety_witness :
    (add_parameter {} (Value.vInt 7)).1 = "?" ∧
    (add_parameter {} (Value.vInt 7)).2.parameters = [Value.vInt 7] :=
  ⟨(add_parameter_buffer_safety.1 {} (Value.vInt 7)).1,
    by simpa using (add_parameter_buffer_safety.1 {} (Value.vInt 7)).2⟩

/-- C5: `build_sql` assembles SELECT (with DISTINCT when requested), FROM, the join
clauses, WHERE with the accumulated conditions joined by AND, ORDER BY, then
pagination, in exactly that order; when skip and limit are both given the SQL ends
with the LIMIT clause followed by the OFFSET clause, both values inlined as decimal
integers, and no `?` placeholder is emitted for them. -/
theorem build_sql_clause_order :
    (∀ (ctx : TranslationContext) (d : Bool),
      build_sql ctx d none none = joinSep "\n"
        (["SELECT " ++ (if d then "DISTINCT " else "") ++ joinSep ", " ctx.select_items]
          ++ (if ctx.from_clauses.isEmpty then []
              else ["FROM " ++ joinSep ", " ctx.from_clauses])
          ++ ctx.join_clauses
          ++ (if ctx.where_conditions.isEmpty then []
              else ["WHERE " ++ joinSep " AND " ctx.where_conditions])
          ++ (if ctx.order_by_items.isEmpty then []
              else ["ORDER BY " ++ joinSep ", " ctx.order_by_items]))) ∧
    (∀ (ctx : TranslationContext) (d : Bool) (l s : Int),
      build_sql ctx d (some l) (some s) =
        build_sql ctx d none none ++ "\n" ++ ("LIMIT " ++ Int.repr l) ++ "\n" ++
          ("OFFSET " ++ Int.repr s)) ∧
    (∀ l s : Int,
      noQMark ("\n" ++ ("LIMIT " ++ Int.repr l) ++ "\n" ++ ("OFFSET " ++ Int.repr s))) := by
  refine ⟨?_, build_sql_pagination, ?_⟩
  · intro ctx d
    simp [build_sql, List.append_nil]
  · intro l s
    refine noQMark_append (noQMark_append (noQMark_append ?_ ?_) ?_) ?_
    · decide
    · exact noQMark_append (by decide) (noQMark_intRepr l)
    · decide
    · exact noQMark_append (by decide) (noQMark_intRepr s)

/-- C5 witness: concrete pagination values are inlined after the base SQL with no `?`. -/
theorem build_sql_clause_order_witness :
    build_sql { select_items := ["n0.node_id"], from_clauses := ["nodes AS n0"] }
        false (some 50) (some 20) =
      build_sql { select_items := ["n0.node_id"], from_clauses := ["nodes AS n0"] }
        false none none ++ "\n" ++ ("LIMIT " ++ Int.repr 50) ++ "\n" ++
        ("OFFSET " ++ Int.repr 20) ∧
    noQMark ("\n" ++ ("LIMIT " ++ Int.repr 50) ++ "\n" ++ ("OFFSET " ++ Int.repr 20)) :=
  ⟨build_sql_clause_order.2.1 _ false 50 20, build_sql_clause_order.2.2 50 20⟩

/-- C1: deleting a node issues exactly five DELETE statements, in the order
kg_NodeEmbeddings, rdf_edges (predicate `s = ? OR o_id = ?` with both sides bound to
the node id), rdf_props, rdf_labels, nodes; every table declaring a FOREIGN KEY is
deleted from strictly before the table it references. -/
theorem delete_protein_delete_order (id : String) :
    (delete_protein_statements id).filter isDeleteStmt =
      [⟨"DELETE FROM kg_NodeEmbeddings WHERE id = ?", [Value.vStr id]⟩,
       ⟨"DELETE FROM rdf_edges WHERE s = ? OR o_id = ?", [Value.vStr id, Value.vStr id]⟩,
       ⟨"DELETE FROM rdf_props WHERE s = ?", [Value.vStr id]⟩,
       ⟨"DELETE FROM rdf_labels WHERE s = ?", [Value.vStr id]⟩,
       ⟨"DELETE FROM nodes WHERE node_id = ?", [Value.vStr id]⟩] ∧
    ((delete_protein_statements id).filter isDeleteStmt).length = 5 ∧
    ((delete_protein_statements id).filter isDeleteStmt).map deleteTarget =
      deleteTableOrder ∧
    ∀ p ∈ fk_references,
      deleteTableOrder.indexOf p.1 < deleteTableOrder.indexOf p.2 := by
  refine ⟨rfl, rfl, rfl, by decide⟩

/-- C1 witness: a concrete deletion, with the FK-order fact discharged for
`rdf_labels` referencing `nodes`. -/
theorem delete_protein_delete_order_witness :
    ((delete_protein_statements "P:1").filter isDeleteStmt).length = 5 ∧
    deleteTableOrder.indexOf "rdf_labels" < deleteTableOrder.indexOf "nodes" :=
  ⟨(delete_protein_delete_order "P:1").2.1,
    (delete_protein_delete_order "P:1").2.2.2 ("rdf_labels", "nodes") (by decide)⟩

/-- C4: the idempotent-insert statement of each of the five graph tables has the
`INSERT … SELECT ? WHERE NOT EXISTS (SELECT 1 FROM … WHERE matching-key)` form, with
matching key `node_id` for `nodes` and `(s, p, o_id)` for `rdf_edges`; any other
table name raises a `ValueError` naming the valid tables; and running such a
statement twice against a table with no matching row leaves exactly one row. -/
theorem get_bulk_insert_sql_idempotent :
    (get_bulk_insert_sql "nodes" = .ok
      "INSERT INTO Graph_KG.nodes (node_id) SELECT ? WHERE NOT EXISTS (SELECT 1 FROM Graph_KG.nodes WHERE node_id = ?)") ∧
    (get_bulk_insert_sql "rdf_labels" = .ok
      "INSERT INTO Graph_KG.rdf_labels (s, label) SELECT ?, ? WHERE NOT EXISTS (SELECT 1 FROM Graph_KG.rdf_labels WHERE s = ? AND label = ?)") ∧
    (get_bulk_insert_sql "rdf_props" = .ok
      "INSERT INTO Graph_KG.rdf_props (s, \"key\", val) SELECT ?, ?, ? WHERE NOT EXISTS (SELECT 1 FROM Graph_KG.rdf_props WHERE s = ? AND \"key\" = ?)") ∧
    (get_bulk_insert_sql "rdf_edges" = .ok
      "INSERT INTO Graph_KG.rdf_edges (s, p, o_id) SELECT ?, ?, ? WHERE NOT EXISTS (SELECT 1 FROM Graph_KG.rdf_edges WHERE s = ? AND p = ? AND o_id = ?)") ∧
    (get_bulk_insert_sql "kg_NodeEmbeddings" = .ok
      "INSERT INTO Graph_KG.kg_NodeEmbeddings (id, emb, metadata) SELECT ?, TO_VECTOR(?), ? WHERE NOT EXISTS (SELECT 1 FROM Graph_KG.kg_NodeEmbeddings WHERE id = ?)") ∧
    (∀ table : String,
      table ∉ (["nodes", "rdf_labels", "rdf_props", "rdf_edges", "kg_NodeEmbeddings"] :
        List String) →
      get_bulk_insert_sql table = .error ("Unknown table: " ++ table ++
        ". Valid: ['nodes', 'rdf_labels', 'rdf_props', 'rdf_edges', 'kg_NodeEmbeddings']")) ∧
    (∀ {α κ : Type} [inst : DecidableEq κ] (key : α → κ) (t : List α) (row : α),
      notExistsInsert key (notExistsInsert key t row) row = notExistsInsert key t row ∧
      (countKey key t (key row) = 0 →
        countKey key (notExistsInsert key (notExistsInsert key t row) row) (key row)
          = 1)) := by
  refine ⟨rfl, rfl, rfl, rfl, rfl, ?_, ?_⟩
  · intro table h
    simp only [List.mem_cons, List.not_mem_nil, or_false, not_or] at h
    obtain ⟨h1, h2, h3, h4, h5⟩ := h
    simp [get_bulk_insert_sql, h1, h2, h3, h4, h5]
  · intro α κ inst key t row
    have hid : notExistsInsert key (notExistsInsert key t row) row =
        notExistsInsert key t row := by
      by_cases h : t.any (fun r => decide (key r = key row)) = true
      · simp [notExistsInsert, h]
      · have h2 : (t ++ [row]).any (fun r => decide (key r = key row)) = true := by
          simp [List.any_append]
        simp [notExistsInsert, h, h2]
    refine ⟨hid, ?_⟩
    intro h0
    rw [hid]
    have hfil : t.filter (fun r => decide (key r = key row)) = [] :=
      List.length_eq_zero.mp h0
    have hany : t.any (fun r => decide (key r = key row)) = false := by
      rw [List.any_eq_false]
      intro x hx
      have := List.filter_eq_nil.mp hfil x hx
      simpa using this
    unfold notExistsInsert
    rw [hany]
    simp only [Bool.false_eq_true, if_false, countKey, List.filter_append, hfil,
      List.length_append]
    simp

/-- C4 witness: an unknown table raises the `ValueError`, and a double insert of a
fresh node id leaves exactly one matching row. -/
theorem get_bulk_insert_sql_idempotent_witness :
    get_bulk_insert_sql "docs" = .error
      "Unknown table: docs. Valid: ['nodes', 'rdf_labels', 'rdf_props', 'rdf_edges', 'kg_NodeEmbeddings']" ∧
    countKey (fun r => r)
      (notExistsInsert (fun r => r)
        (notExistsInsert (fun r => r) ([] : List String) "P:1") "P:1") "P:1" = 1 :=
  ⟨get_bulk_insert_sql_idempotent.2.2.2.2.2.1 "docs" (by decide),
    (get_bulk_insert_sql_idempotent.2.2.2.2.2.2 (fun r : String => r) [] "P:1").2 rfl⟩

/-- C7: for every property being set, the write path issues
`UPDATE rdf_props SET val = ?` keyed by (s, key) first and the corresponding INSERT
exactly when that UPDATE matched zero rows; the loop emits one such pair per property
and a single commit at the end. -/
theorem update_protein_upsert_pairs :
    (∀ (t : List PropRow) (sid k v : String),
      (upsertProp t sid k v).1 =
        updStmt sid k v ::
          (if (sqlUpdateProps t sid k v).2 = 0 then [insStmt sid k v] else []) ∧
      ((upsertProp t sid k v).1.head? = some (updStmt sid k v)) ∧
      (insStmt sid k v ∈ (upsertProp t sid k v).1 ↔ (sqlUpdateProps t sid k v).2 = 0)) ∧
    (∀ (sid : String) (inp : UpdateProteinInput) (t : List PropRow),
      (update_protein_run sid inp t).1 =
        (upsertLoop sid (updateEntries inp) t).1 ++ [commitMarker] ∧
      commitMarker ∉ (upsertLoop sid (updateEntries inp) t).1 ∧
      ((update_protein_run sid inp t).1.filter (fun s => s == commitMarker)).length
        = 1 ∧
      (update_protein_run sid inp t).1.getLast? = some commitMarker) := by
  have hstmts : ∀ (t : List PropRow) (sid k v : String),
      (upsertProp t sid k v).1 =
        updStmt sid k v ::
          (if (sqlUpdateProps t sid k v).2 = 0 then [insStmt sid k v] else []) := by
    intro t sid k v
    unfold upsertProp
    by_cases h : (sqlUpdateProps t sid k v).2 = 0 <;> simp [h]
  have hne : ∀ sid k v : String, insStmt sid k v ≠ updStmt sid k v := by
    intro sid k v he
    have h2 : ("INSERT INTO rdf_props (s, key, val) VALUES (?, ?, ?)" : String) =
        "UPDATE rdf_props SET val = ? WHERE s = ? AND key = ?" := congrArg Stmt.sql he
    exact absurd h2 (by decide)
  have hcne : ∀ sid k v : String, commitMarker ≠ updStmt sid k v := by
    intro sid k v he
    have h2 : ("COMMIT" : String) =
        "UPDATE rdf_props SET val = ? WHERE s = ? AND key = ?" := congrArg Stmt.sql he
    exact absurd h2 (by decide)
  have hcni : ∀ sid k v : String, commitMarker ≠ insStmt sid k v := by
    intro sid k v he
    have h2 : ("COMMIT" : String) =
        "INSERT INTO rdf_props (s, key, val) VALUES (?, ?, ?)" := congrArg Stmt.sql he
    exact absurd h2 (by decide)
  have hnotmem : ∀ (sid : String) (entries : List (String × String)) (t : List PropRow),
      commitMarker ∉ (upsertLoop sid entries t).1 := by
    intro sid entries
    induction entries with
    | nil => intro t h; simp [upsertLoop] at h
    | cons e rest ih =>
      intro t h
      obtain ⟨k, v⟩ := e
      simp only [upsertLoop] at h
      rcases List.mem_append.mp h with h | h
      · rw [hstmts] at h
        rcases List.mem_cons.mp h with h | h
        · exact hcne sid k v h
        · by_cases h0 : (sqlUpdateProps t sid k v).2 = 0
          · rw [if_pos h0] at h
            simp only [List.mem_singleton] at h
            exact hcni sid k v h
          · rw [if_neg h0] at h
            simp at h
      · exact ih _ h
  refine ⟨?_, ?_⟩
  · intro t sid k v
    refine ⟨hstmts t sid k v, by rw [hstmts t sid k v]; rfl, ?_⟩
    rw [hstmts t sid k v]
    by_cases h0 : (sqlUpdateProps t sid k v).2 = 0
    · simp [h0]
    · simp only [h0, if_false, iff_false]
      intro hmem
      rcases List.mem_cons.mp hmem with hmem | hmem
      · exact hne sid k v hmem
      · simp at hmem
  · intro sid inp t
    refine ⟨rfl, hnotmem sid (updateEntries inp) t, ?_, ?_⟩
    · have hfil : ((upsertLoop sid (updateEntries inp) t).1.filter
          (fun s => s == commitMarker)) = [] := by
        rw [List.filter_eq_nil]
        intro a ha hbeq
        have : a = commitMarker := by simpa using hbeq
        subst this
        exact hnotmem sid (updateEntries inp) t ha
      show (((upsertLoop sid (updateEntries inp) t).1 ++ [commitMarker]).filter
        (fun s => s == commitMarker)).length = 1
      rw [List.filter_append, hfil]
      simp
    · show ((upsertLoop sid (updateEntries inp) t).1 ++ [commitMarker]).getLast?
        = some commitMarker
      simp [List.getLast?_append]

/-- C7 witness: on a table that already holds the (s, key) row only the UPDATE is
issued, and on an empty table the UPDATE is followed by the INSERT. -/
theorem update_protein_upsert_pairs_witness :
    (upsertProp [("P:1", "name", "old")] "P:1" "name" "TP53").1 =
      [updStmt "P:1" "name" "TP53"] ∧
    (upsertProp [] "P:1" "name" "TP53").1 =
      [updStmt "P:1" "name" "TP53", insStmt "P:1" "name" "TP53"] ∧
    (insStmt "P:1" "name" "TP53" ∈ (upsertProp [] "P:1" "name" "TP53").1 ↔
      (sqlUpdateProps [] "P:1" "name" "TP53").2 = 0) :=
  ⟨by
      have h := (update_protein_upsert_pairs.1 [("P:1", "name", "old")]
        "P:1" "name" "TP53").1
      rw [h]
      rfl,
   by
      have h := (update_protein_upsert_pairs.1 [] "P:1" "name" "TP53").1
      rw [h]
      rfl,
   (update_protein_upsert_pairs.1 [] "P:1" "name" "TP53").2.2⟩

/-- C10: `create_protein` accepts a non-empty embedding only when its length is
exactly 768 — a literal bound at this interface — for any other non-zero length it
errors with the transaction rolled back; every error path leaves all four tables
unchanged. -/
theorem create_protein_embedding_gate :
    (∀ (db : GraphState) (inp : CreateProteinInput) (l : List Value),
      db.nodes.contains inp.id = false → inp.embedding = some l →
      l.length ≠ 0 → l.length ≠ 768 →
      create_protein db inp = (db,
        some ("Failed to create protein: Embedding must be 768-dimensional, got " ++
          Nat.repr l.length))) ∧
    (∀ (db : GraphState) (inp : CreateProteinInput),
      (create_protein db inp).2.isSome → (create_protein db inp).1 = db) ∧
    (∀ (db : GraphState) (inp : CreateProteinInput) (l : List Value),
      db.nodes.contains inp.id = false → inp.embedding = some l →
      ((create_protein db inp).2 = none ↔ (l.length = 0 ∨ l.length = 768))) := by
  refine ⟨?_, ?_, ?_⟩
  · intro db inp l hc hemb h0 h768
    unfold create_protein
    rw [hc, hemb]
    have hl : l.length > 0 := Nat.pos_of_ne_zero h0
    simp only [Bool.false_eq_true, if_false, if_pos hl, if_pos h768]
  · intro db inp
    unfold create_protein
    split
    · intro _
      rfl
    · repeat' split
      all_goals intro h
      all_goals first
        | rfl
        | simp at h
  · intro db inp l hc hemb
    unfold create_protein
    rw [hc, hemb]
    simp only [Bool.false_eq_true, if_false]
    by_cases h0 : l.length = 0
    · have hl : ¬ l.length > 0 := by omega
      rw [if_neg hl]
      simp [h0]
    · have hl : l.length > 0 := Nat.pos_of_ne_zero h0
      by_cases h768 : l.length = 768
      · rw [if_pos hl, if_neg (by omega : ¬ l.length ≠ 768)]
        simp [h768]
      · rw [if_pos hl, if_pos h768]
        simp [h0, h768]

set_option maxRecDepth 4000 in
/-- C10 witness: a 3-dimensional embedding on a fresh id errors with the state rolled
back, while a 768-dimensional one succeeds. -/
theorem create_protein_embedding_gate_witness :
    create_protein {} { id := "P:1"
                        name := "TP53"
                        embedding := some [Value.vInt 1, Value.vInt 0, Value.vInt 0] } =
      ({}, some ("Failed to create protein: Embedding must be 768-dimensional, got "
        ++ Nat.repr 3)) ∧
    (create_protein {} { id := "P:1"
                         name := "TP53"
                         embedding := some (List.replicate 768 (Value.vInt 0)) }).2
      = none :=
  ⟨create_protein_embedding_gate.1 {}
      { id := "P:1"
        name := "TP53"
        embedding := some [Value.vInt 1, Value.vInt 0, Value.vInt 0] }
      [Value.vInt 1, Value.vInt 0, Value.vInt 0]
      rfl rfl (by decide) (by decide),
    (create_protein_embedding_gate.2.2 {}
      { id := "P:1"
        name := "TP53"
        embedding := some (List.replicate 768 (Value.vInt 0)) }
      (List.replicate 768 (Value.vInt 0))
      rfl rfl).mpr (Or.inr (by simp))⟩

theorem execStmtsLoop_eq {σ : Type} (sem : String → List Value → σ → Option σ) :
    ∀ (stmts : List String) (allPs : List (List Value)) (idx : Nat) (st : σ),
      execStmtsLoop sem stmts allPs idx st =
        (execTraceSpec sem (alignedFrom stmts allPs idx) st,
         runProgramSpec sem (alignedFrom stmts allPs idx) st) := by
  intro stmts
  induction stmts with
  | nil => intro allPs idx st; rfl
  | cons s rest ih =>
    intro allPs idx st
    simp only [execStmtsLoop, alignedFrom, execTraceSpec, runProgramSpec]
    cases hsem : sem s (allPs.getD idx []) st with
    | none => rfl
    | some st2 =>
      simp [ih]

/-- C2: for a transactional program the executor issues START TRANSACTION first,
attempts the statements in emitted order each with its positionally aligned parameter
list, ends the trace with COMMIT exactly when every statement succeeded and with
ROLLBACK when one raised, and on any failure the committed state equals the initial
state — all tables unchanged. -/
theorem execute_cypher_transactional_atomic {σ : Type}
    (sem : String → List Value → σ → Option σ) (stmts : List String)
    (allPs : List (List Value)) (db : σ) :
    ((execute_cypher_transactional sem stmts allPs db).1.head? = some DbCmd.startTxn) ∧
    ((execute_cypher_transactional sem stmts allPs db).1 =
      DbCmd.startTxn :: execTraceSpec sem (alignedStatements stmts allPs) db ++
        [if (execute_cypher_transactional sem stmts allPs db).2.2 then DbCmd.commit
         else DbCmd.rollback]) ∧
    ((execute_cypher_transactional sem stmts allPs db).2.2 = true ↔
      (runProgramSpec sem (alignedStatements stmts allPs) db).isSome = true) ∧
    ((execute_cypher_transactional sem stmts allPs db).2.2 = true →
      runProgramSpec sem (alignedStatements stmts allPs) db =
        some (execute_cypher_transactional sem stmts allPs db).2.1) ∧
    ((execute_cypher_transactional sem stmts allPs db).2.2 = false →
      (execute_cypher_transactional sem stmts allPs db).2.1 = db) := by
  unfold execute_cypher_transactional
  rw [execStmtsLoop_eq sem stmts allPs 0 db]
  cases hrun : runProgramSpec sem (alignedFrom stmts allPs 0) db with
  | some w => simp [alignedStatements, hrun]
  | none => simp [alignedStatements, hrun]

/-- C2 witness: a two-statement program whose second statement raises ends in
rollback and leaves the state unchanged. -/
theorem execute_cypher_transactional_atomic_witness :
    (execute_cypher_transactional semExample ["INSERT A", "BOOM"] [[], []] 0).2.1 = 0 ∧
    (execute_cypher_transactional semExample ["INSERT A", "BOOM"] [[], []] 0).2.2
      = false :=
  ⟨(execute_cypher_transactional_atomic semExample ["INSERT A", "BOOM"]
      [[], []] 0).2.2.2.2 (by decide),
    by decide⟩

/-- C9: over any sequence of registrations the alias table maps node-pattern
variables to `n0, n1, …` in first-registration order and edge variables to
`e0, e1, …` (the canonical-table invariant); registering a variable already in the
table returns its existing alias and leaves the context, counters included,
unchanged; an alias, once assigned, is stable under later registrations; and
distinct variables get distinct aliases. -/
theorem register_variable_alias_table :
    (∀ evs : List (VarKind × String), aliasTableCanonical (runEvents evs)) ∧
    (∀ (ctx : TranslationContext) (v a : String),
      ctx.variable_aliases.lookup v = some a → register_variable ctx v = (a, ctx)) ∧
    (∀ (ctx : FullAliasContext) (v a : String),
      ctx.base.variable_aliases.lookup v = some a →
        register_edge_variable ctx v = (a, ctx)) ∧
    (∀ (evs evs2 : List (VarKind × String)) (v a : String),
      (runEvents evs).base.variable_aliases.lookup v = some a →
        (runEvents (evs ++ evs2)).base.variable_aliases.lookup v = some a) ∧
    (∀ (evs : List (VarKind × String)) (v w a b : String), v ≠ w →
      (runEvents evs).base.variable_aliases.lookup v = some a →
      (runEvents evs).base.variable_aliases.lookup w = some b → a ≠ b) := by
  refine ⟨fun evs => foldl_registerEvent_canonical canonical_empty evs, ?_, ?_, ?_, ?_⟩
  · intro ctx v a h
    rw [register_variable, h]
  · intro ctx v a h
    simp only [register_edge_variable, h]
  · intro evs evs2 v a h
    show ((evs ++ evs2).foldl registerEvent {}).base.variable_aliases.lookup v = some a
    rw [List.foldl_append]
    exact foldl_preserves_lookup h evs2
  · intro evs v w a b hvw hv hw
    exact canonical_lookup_inj (foldl_registerEvent_canonical canonical_empty evs)
      hvw hv hw

/-- C9 witness: three concrete registrations produce the aliases n0, e0, n1, and the
distinctness fact is discharged for the two node variables. -/
theorem register_variable_alias_table_witness :
    (runEvents [(VarKind.node, "a"), (VarKind.edge, "r"), (VarKind.node, "b")]
      ).base.variable_aliases.lookup "a" = some "n0" ∧
    (runEvents [(VarKind.node, "a"), (VarKind.edge, "r"), (VarKind.node, "b")]
      ).base.variable_aliases.lookup "r" = some "e0" ∧
    (runEvents [(VarKind.node, "a"), (VarKind.edge, "r"), (VarKind.node, "b")]
      ).base.variable_aliases.lookup "b" = some "n1" ∧
    ("n0" : String) ≠ "n1" :=
  ⟨by decide, by decide, by decide,
    register_variable_alias_table.2.2.2.2
      [(VarKind.node, "a"), (VarKind.edge, "r"), (VarKind.node, "b")]
      "a" "b" "n0" "n1" (by decide) (by decide) (by decide)⟩

set_option maxRecDepth 40000 in
/-- C3: translating the vector-search CALL with a literal vector and default
similarity produces one SQL string led by a CTE named VecSearch whose body selects
TOP n rows from kg_NodeEmbeddings, computes VECTOR_COSINE against TO_VECTOR(?),
filters by a label parameter bound to the given label, and orders by score
descending; the outer query selects VecSearch.score AS score as a scalar while node
is hydrated with labels and properties. -/
theorem vector_search_cte_shape (label pr : String) (vec : List Value) (n : Nat) :
    translate_vector_search label pr vec n none =
      .ok { sql := vecSearchSQL "VECTOR_COSINE" n
            parameters := [[Value.vStr (vectorJson vec), Value.vStr label]]
            is_transactional := false } ∧
    strContains (vecSearchSQL "VECTOR_COSINE" n) "VecSearch AS (" ∧
    strContains (vecSearchSQL "VECTOR_COSINE" n) ("SELECT TOP " ++ Nat.repr n) ∧
    strContains (vecSearchSQL "VECTOR_COSINE" n) "VECTOR_COSINE" ∧
    strContains (vecSearchSQL "VECTOR_COSINE" n) "TO_VECTOR(?)" ∧
    strContains (vecSearchSQL "VECTOR_COSINE" n) "kg_NodeEmbeddings" ∧
    strContains (vecSearchSQL "VECTOR_COSINE" n) "l.label = ?" ∧
    strContains (vecSearchBody "VECTOR_COSINE" n) "ORDER BY score DESC" ∧
    strContains vecSearchOuter "VecSearch.score AS score" ∧
    strContains vecSearchOuter "node_labels" ∧
    strContains vecSearchOuter "node_props" ∧
    Value.vStr label ∈ [[Value.vStr (vectorJson vec), Value.vStr label]].getD 0 [] := by
  refine ⟨rfl, ?_, ?_, ?_, ?_, ?_, ?_, ?_, ?_, ?_, ?_, by simp⟩
  all_goals simp only [vecSearchSQL, vecSearchBody, vecSearchOuter]
  · exact strContains_left (strContains_left
      (strContains_left (strContains_of_segment (by decide)) _) _) _
  · exact strContains_left (strContains_left (strContains_right
      (strContains_left (strContains_left (strContains_left (strContains_left
        (strContains_left (strContains_left (strContains_left
          (strContains_self _) _) _) _) _) _) _) _) _) _) _
  · exact strContains_left (strContains_left (strContains_right
      (strContains_left (strContains_left (strContains_left (strContains_left
        (strContains_left (strContains_right (strContains_self _) _) _) _) _) _) _)
      _) _) _
  · exact strContains_left (strContains_left (strContains_right
      (strContains_left (strContains_left (strContains_left (strContains_left
        (strContains_right (strContains_of_segment (by decide)) _) _) _) _) _) _) _) _
  · exact strContains_left (strContains_left (strContains_right
      (strContains_left (strContains_left (strContains_left
        (strContains_right (strContains_of_segment (by decide)) _) _) _) _) _) _) _
  · exact strContains_left (strContains_left (strContains_right
      (strContains_left (strContains_right (strContains_of_segment (by decide)) _) _)
      _) _) _
  · exact strContains_right (strContains_self _) _
  · exact strContains_of_segment (by decide)
  · exact strContains_of_segment (by decide)
  · exact strContains_of_segment (by decide)

/-- C3 witness: the concrete Gene query yields the CTE-led SQL with TOP 3. -/
theorem vector_search_cte_shape_witness :
    translate_vector_search "Gene" "embedding"
        [Value.vInt 1, Value.vInt 0, Value.vInt 0] 3 none =
      .ok { sql := vecSearchSQL "VECTOR_COSINE" 3
            parameters :=
              [[Value.vStr (vectorJson [Value.vInt 1, Value.vInt 0, Value.vInt 0]),
                Value.vStr "Gene"]]
            is_transactional := false } ∧
    strContains (vecSearchSQL "VECTOR_COSINE" 3) ("SELECT TOP " ++ Nat.repr 3) :=
  ⟨(vector_search_cte_shape "Gene" "embedding"
      [Value.vInt 1, Value.vInt 0, Value.vInt 0] 3).1,
    (vector_search_cte_shape "Gene" "embedding"
      [Value.vInt 1, Value.vInt 0, Value.vInt 0] 3).2.2.1⟩

/-- C6: the similarity option dot_product makes the CTE use VECTOR_DOT_PRODUCT, an
absent option defaults to cosine and uses VECTOR_COSINE, and any other similarity
value fails with a translation error naming the option — no SQL is produced. -/
theorem vector_search_similarity_options :
    (similarityFunction none = .ok "VECTOR_COSINE") ∧
    (similarityFunction (some "cosine") = .ok "VECTOR_COSINE") ∧
    (similarityFunction (some "dot_product") = .ok "VECTOR_DOT_PRODUCT") ∧
    (∀ (label pr : String) (vec : List Value) (n : Nat),
      translate_vector_search label pr vec n (some "dot_product") =
        .ok { sql := vecSearchSQL "VECTOR_DOT_PRODUCT" n
              parameters := [[Value.vStr (vectorJson vec), Value.vStr label]]
              is_transactional := false } ∧
      strContains (vecSearchSQL "VECTOR_DOT_PRODUCT" n) "VECTOR_DOT_PRODUCT") ∧
    (∀ s : String, s ≠ "cosine" → s ≠ "dot_product" →
      similarityFunction (some s) = .error ("Unknown similarity: " ++ s) ∧
      ∀ (label pr : String) (vec : List Value) (n : Nat),
        translate_vector_search label pr vec n (some s) =
          .error ("Unknown similarity: " ++ s)) := by
  have herr : ∀ s : String, s ≠ "cosine" → s ≠ "dot_product" →
      similarityFunction (some s) = .error ("Unknown similarity: " ++ s) := by
    intro s h1 h2
    unfold similarityFunction
    split <;> simp_all
  refine ⟨rfl, rfl, rfl, ?_, ?_⟩
  · intro label pr vec n
    refine ⟨rfl, ?_⟩
    simp only [vecSearchSQL, vecSearchBody]
    exact strContains_left (strContains_left (strContains_right
      (strContains_left (strContains_left (strContains_left (strContains_left
        (strContains_left (strContains_right (strContains_self _) _) _) _) _) _) _)
      _) _) _
  · intro s h1 h2
    refine ⟨herr s h1 h2, ?_⟩
    intro label pr vec n
    unfold translate_vector_search
    rw [herr s h1 h2]
    rfl

/-- C6 witness: the unknown similarity value `bad_value` is rejected with no SQL
produced, while `dot_product` lowers to VECTOR_DOT_PRODUCT. -/
theorem vector_search_similarity_options_witness :
    similarityFunction (some "bad_value") = .error "Unknown similarity: bad_value" ∧
    translate_vector_search "Gene" "emb" [Value.vInt 1] 5 (some "bad_value") =
      .error "Unknown similarity: bad_value" ∧
    strContains (vecSearchSQL "VECTOR_DOT_PRODUCT" 5) "VECTOR_DOT_PRODUCT" :=
  ⟨(vector_search_similarity_options.2.2.2.2 "bad_value" (by decide) (by decide)).1,
    (vector_search_similarity_options.2.2.2.2 "bad_value" (by decide) (by decide)).2
      "Gene" "emb" [Value.vInt 1] 5,
    (vector_search_similarity_options.2.2.2.1 "Gene" "emb" [Value.vInt 1] 5).2⟩

end IVG
